import Mathlib

/-!
The undirected adjacency list of `origin/graph/adjacency_list/undirected.hpp`.

A shallow embedding of `origin::undirected_adjacency_list` and of the directed
base store it wraps, followed by theorems about its edge lookup, incidence
enumeration and mutation operations.

Handles are indices into the base store.  A handle is either an index or the
null handle; the null handle is written `none`, an index `n` is `some n`.
-/

namespace origin

/-- Modelled from the spec: the vertex handle `vertex_handle<std::size_t>`, whose
declaration is not among the sources.  An opaque identity: a nonnegative index
into the base store, or the null handle `none`. -/
abbrev vertex_handle := Option Nat

/-- Modelled from the spec: the directed edge identity (the `edge` type of the
base store), whose declaration is not among the sources.  An index of a directed edge
record, or the null identity `none`; the conversion to `bool` used by
`get_edge` is `Option.isSome`. -/
abbrev edge_handle := Option Nat

/-- Modelled from the spec: `undirected_edge_handle<std::size_t>`, whose
declaration is not among the sources.  The fields are the ones the wrapper reads:
`e.edge` (the underlying directed edge), `e.source` (the viewpoint endpoint,
`endpoint_a`) and `e.target` (`endpoint_b`). -/
structure undirected_edge_handle where
  edge : edge_handle
  source : vertex_handle
  target : vertex_handle
  deriving DecidableEq

/-- One directed edge record of the base store: its stored source, its stored
target and the edge value. -/
structure edge_record (E : Type) where
  source : vertex_handle
  target : vertex_handle
  value : E

/-- Modelled from the spec: the directed base store `directed_adjacency_list`
(`directed.hpp` is not among the sources).  It owns the vertex records and the
directed edge records; the identity of a record is its position, so identities
grow monotonically with insertion. -/
structure directed_adjacency_list (V E : Type) where
  vertex_values : List V
  edge_records : List (edge_record E)

namespace directed_adjacency_list

variable {V E : Type}

/-- Modelled from the spec: `order()` of the base store, the number of vertices. -/
def order (b : directed_adjacency_list V E) : Nat := b.vertex_values.length

/-- Modelled from the spec: `size()` of the base store, the number of directed
edge records. -/
def size (b : directed_adjacency_list V E) : Nat := b.edge_records.length

/-- Modelled from the spec: `null()` of the base store. -/
def null (b : directed_adjacency_list V E) : Bool := b.order == 0

/-- Modelled from the spec: `empty()` of the base store. -/
def empty (b : directed_adjacency_list V E) : Bool := b.size == 0

/-- The record a directed edge identity refers to, when the store holds one. -/
def record (b : directed_adjacency_list V E) (e : edge_handle) : Option (edge_record E) :=
  e.bind fun i => b.edge_records[i]?

/-- Modelled from the spec: `source(e)` of the base store.  The spec gives no
result for an identity the store does not hold; the model answers with the null
vertex handle there. -/
def source (b : directed_adjacency_list V E) (e : edge_handle) : vertex_handle :=
  (b.record e).bind fun r => r.source

/-- Modelled from the spec: `target(e)` of the base store.  The spec gives no
result for an identity the store does not hold; the model answers with the null
vertex handle there. -/
def target (b : directed_adjacency_list V E) (e : edge_handle) : vertex_handle :=
  (b.record e).bind fun r => r.target

/-- The identities of the records that satisfy `p`, in increasing order. -/
def select (b : directed_adjacency_list V E) (p : edge_record E → Bool) : List Nat :=
  (b.edge_records.enum.filter fun ir => p ir.2).map Prod.fst

/-- Modelled from the spec: the per-vertex directed adjacency set of out-edges,
the identities of the records whose stored source is `v`. -/
def out_edges (b : directed_adjacency_list V E) (v : vertex_handle) : List Nat :=
  b.select fun r => r.source == v

/-- Modelled from the spec: the per-vertex directed adjacency set of in-edges,
the identities of the records whose stored target is `v`. -/
def in_edges (b : directed_adjacency_list V E) (v : vertex_handle) : List Nat :=
  b.select fun r => r.target == v

/-- Modelled from the spec: `out_degree(v)` of the base store. -/
def out_degree (b : directed_adjacency_list V E) (v : vertex_handle) : Nat :=
  (b.out_edges v).length

/-- Modelled from the spec: `in_degree(v)` of the base store. -/
def in_degree (b : directed_adjacency_list V E) (v : vertex_handle) : Nat :=
  (b.in_edges v).length

/-- Modelled from the spec: `degree(v)` of the base store, which the spec defines
as `out_degree(v) + in_degree(v)`. -/
def degree (b : directed_adjacency_list V E) (v : vertex_handle) : Nat :=
  b.out_degree v + b.in_degree v

/-- Modelled from the spec: `get_out_edge(v, n)`, 0-based indexed access into the
out-edges of `v`, for `n < out_degree(v)`.  The spec gives no answer for an index
past the end; the null identity stands in for it there, and no theorem rests on
that answer. -/
def get_out_edge (b : directed_adjacency_list V E) (v : vertex_handle) (n : Nat) : edge_handle :=
  (b.out_edges v)[n]?

/-- Modelled from the spec: `get_in_edge(v, n)`, 0-based indexed access into the
in-edges of `v`, for `n < in_degree(v)`.  The spec gives no answer for an index
past the end; the null identity stands in for it there, and no theorem rests on
that answer. -/
def get_in_edge (b : directed_adjacency_list V E) (v : vertex_handle) (n : Nat) : edge_handle :=
  (b.in_edges v)[n]?

/-- Modelled from the spec: `get_edge(u, v)` of the base store, a directed-only
match: the first record with stored source `u` and stored target `v`, null if
there is none. -/
def get_edge (b : directed_adjacency_list V E) (u v : vertex_handle) : edge_handle :=
  (b.select fun r => r.source == u && r.target == v).head?

/-- Modelled from the spec: `add_vertex(value)` of the base store: appends one
vertex record and returns its identity. -/
def add_vertex (b : directed_adjacency_list V E) (x : V) :
    directed_adjacency_list V E × vertex_handle :=
  ({ b with vertex_values := b.vertex_values ++ [x] }, some b.order)

/-- Modelled from the spec: `add_edge(u, v, value)` of the base store: inserts one
directed record `u → v`, without deduplication, and returns its identity. -/
def add_edge (b : directed_adjacency_list V E) (u v : vertex_handle) (x : E) :
    directed_adjacency_list V E × edge_handle :=
  ({ b with edge_records := b.edge_records ++ [⟨u, v, x⟩] }, some b.size)

/-- Modelled from the spec: indexing the base store by a vertex handle. -/
def vertex_value (b : directed_adjacency_list V E) (v : vertex_handle) : Option V :=
  v.bind fun i => b.vertex_values[i]?

/-- Modelled from the spec: indexing the base store by a directed edge identity. -/
def edge_value (b : directed_adjacency_list V E) (e : edge_handle) : Option E :=
  (b.record e).map fun r => r.value

end directed_adjacency_list

/-- The class `undirected_adjacency_list`: its only data member is the base
store. -/
structure undirected_adjacency_list (V E : Type) where
  base : directed_adjacency_list V E

namespace undirected_adjacency_list

variable {V E : Type}

/-- The default constructor `undirected_adjacency_list() : base()`: no vertices,
no edges. -/
def default_init : undirected_adjacency_list V E := ⟨⟨[], []⟩⟩

/-- Vertex fill construction `undirected_adjacency_list(n, value) : base(n, value)`:
`n` vertices carrying `value`, no edges. -/
def fill_init (n : Nat) (value : V) : undirected_adjacency_list V E :=
  ⟨⟨List.replicate n value, []⟩⟩

/-- Member `null()`: `return base.null();` -/
def null (g : undirected_adjacency_list V E) : Bool := g.base.null

/-- Member `order()`: `return base.order();` -/
def order (g : undirected_adjacency_list V E) : Nat := g.base.order

/-- Member `empty()`: `return base.empty();` -/
def empty (g : undirected_adjacency_list V E) : Bool := g.base.empty

/-- Member `size()`: `return base.size();` -/
def size (g : undirected_adjacency_list V E) : Nat := g.base.size

/-- Member `degree(v)`: `return base.degree(v);` -/
def degree (g : undirected_adjacency_list V E) (v : vertex_handle) : Nat := g.base.degree v

/-- Member `get_vertex(n)`: `return n;` -/
def get_vertex (_g : undirected_adjacency_list V E) (n : Nat) : vertex_handle := some n

/-- Member `source(e)`: `return e.source;` -/
def source (_g : undirected_adjacency_list V E) (e : undirected_edge_handle) : vertex_handle :=
  e.source

/-- Member `target(e)`: `return e.target;` -/
def target (_g : undirected_adjacency_list V E) (e : undirected_edge_handle) : vertex_handle :=
  e.target

/-- Private member `make_edge(e, v)`: `return {e, v, base.target(e)};`.  The first
argument is the underlying directed edge. -/
def make_edge (g : undirected_adjacency_list V E) (e : edge_handle) (v : vertex_handle) :
    undirected_edge_handle :=
  ⟨e, v, g.base.target e⟩

/-- Private member `make_edge(e)`: `return make_edge(e, base.source(e));` -/
def make_edge_src (g : undirected_adjacency_list V E) (e : edge_handle) : undirected_edge_handle :=
  g.make_edge e (g.base.source e)

/-- Member `get_edge(size_type n)`: `return make_edge(edge{n});` -/
def get_edge_nth (g : undirected_adjacency_list V E) (n : Nat) : undirected_edge_handle :=
  g.make_edge_src (some n)

/-- Member `get_edge(vertex u, vertex v)`:
`e = base.get_edge(u, v); return e ? make_edge(e, u) : make_edge(base.get_edge(v, u), v);` -/
def get_edge (g : undirected_adjacency_list V E) (u v : vertex_handle) : undirected_edge_handle :=
  let e := g.base.get_edge u v
  if e.isSome then g.make_edge e u else g.make_edge (g.base.get_edge v u) v

/-- Member `get_incident_edge(v, n)`:
`d = base.out_degree(v); e = n < d ? base.get_out_edge(v, n) : base.get_in_edge(v, n - d);`
`return {e, v, target(make_edge(e, v))};` -/
def get_incident_edge (g : undirected_adjacency_list V E) (v : vertex_handle) (n : Nat) :
    undirected_edge_handle :=
  let d := g.base.out_degree v
  let e := if n < d then g.base.get_out_edge v n else g.base.get_in_edge v (n - d)
  ⟨e, v, g.target (g.make_edge e v)⟩

/-- Member `add_vertex(x)`: `return base.add_vertex(x);`.  The result is the graph
after the call and the returned handle. -/
def add_vertex (g : undirected_adjacency_list V E) (x : V) :
    undirected_adjacency_list V E × vertex_handle :=
  let r := g.base.add_vertex x
  (⟨r.1⟩, r.2)

/-- Member `add_edge(u, v, x)`: `return make_edge(base.add_edge(u, v, x), u);`.
The result is the graph after the call and the returned handle. -/
def add_edge (g : undirected_adjacency_list V E) (u v : vertex_handle) (x : E) :
    undirected_adjacency_list V E × undirected_edge_handle :=
  let r := g.base.add_edge u v x
  let g1 : undirected_adjacency_list V E := ⟨r.1⟩
  (g1, g1.make_edge r.2 u)

/-- Member `operator[](vertex v)`: `return base[v];` -/
def vertex_value (g : undirected_adjacency_list V E) (v : vertex_handle) : Option V :=
  g.base.vertex_value v

/-- Member `operator[](edge e)`: `return base[e.edge];` -/
def edge_value (g : undirected_adjacency_list V E) (e : undirected_edge_handle) : Option E :=
  g.base.edge_value e.edge

/-- The handle `v` refers to a vertex of the graph. -/
def is_vertex (g : undirected_adjacency_list V E) (v : vertex_handle) : Prop :=
  ∃ n, v = some n ∧ n < g.order

instance (g : undirected_adjacency_list V E) (v : vertex_handle) : Decidable (g.is_vertex v) :=
  match v with
  | none => isFalse (by rintro ⟨n, h, _⟩; cases h)
  | some n =>
    if h : n < g.order then isTrue ⟨n, rfl, h⟩
    else isFalse (by rintro ⟨m, hm, hlt⟩; cases hm; exact h hlt)

end undirected_adjacency_list

/-- One mutating call on a graph. -/
inductive call (V E : Type) where
  | add_vertex (x : V)
  | add_edge (u v : vertex_handle) (x : E)

namespace call

variable {V E : Type}

/-- The graph after the call. -/
def perform (g : undirected_adjacency_list V E) : call V E → undirected_adjacency_list V E
  | add_vertex x => (g.add_vertex x).1
  | add_edge u v x => (g.add_edge u v x).1

/-- The call is an `add_edge` between `u` and `v`, in either order. -/
def joins (u v : vertex_handle) : call V E → Bool
  | add_vertex _ => false
  | add_edge a b _ => (a == u && b == v) || (a == v && b == u)

/-- The call is an `add_edge`. -/
def is_add_edge : call V E → Bool
  | add_vertex _ => false
  | add_edge _ _ _ => true

/-- The call is an `add_vertex`. -/
def is_add_vertex : call V E → Bool
  | add_vertex _ => true
  | add_edge _ _ _ => false

end call

/-- The graph after a sequence of calls, made in order. -/
def run {V E : Type} (g : undirected_adjacency_list V E) (cs : List (call V E)) :
    undirected_adjacency_list V E :=
  cs.foldl call.perform g

/-- Every `add_edge` of the sequence is made on vertices that exist when it is
made. -/
def admissible {V E : Type} : undirected_adjacency_list V E → List (call V E) → Prop
  | _, [] => True
  | g, call.add_vertex x :: cs => admissible (g.add_vertex x).1 cs
  | g, call.add_edge u v x :: cs =>
    g.is_vertex u ∧ g.is_vertex v ∧ admissible (g.add_edge u v x).1 cs

instance {V E : Type} (g : undirected_adjacency_list V E) (cs : List (call V E)) :
    Decidable (admissible g cs) := by
  induction cs generalizing g with
  | nil => exact isTrue trivial
  | cons c cs ih =>
    cases c with
    | add_vertex x => exact ih _
    | add_edge u v x =>
      unfold admissible
      have := ih (g.add_edge u v x).1
      infer_instance

/-- The directed record an `add_edge` call inserts into the base store; an
`add_vertex` call inserts none. -/
def call.inserted {V E : Type} : call V E → Option (edge_record E)
  | call.add_vertex _ => none
  | call.add_edge u v x => some ⟨u, v, x⟩

namespace undirected_adjacency_list

variable {V E : Type}

/-- Member `edges()`: `return {nullptr, nullptr};`, a `bounded_range<int*>` between
two null pointers.  The range holds no element, so the sequence it produces is
empty whatever the graph is. -/
def edges (_g : undirected_adjacency_list V E) : List undirected_edge_handle := []

/-- Member `edges(vertex v)`: `return {nullptr, nullptr};`, again the range
between two null pointers: the empty sequence, whatever the graph and the vertex
are. -/
def edges_at (_g : undirected_adjacency_list V E) (_v : vertex_handle) :
    List undirected_edge_handle := []

/-- The handles `get_edge(0)`, ..., `get_edge(size() - 1)`, in this order: the
edges of the graph by underlying directed edge index. -/
def stored_edges (g : undirected_adjacency_list V E) : List undirected_edge_handle :=
  (List.range g.size).map g.get_edge_nth

/-- The handles `get_incident_edge(v, 0)`, ..., `get_incident_edge(v, degree(v) - 1)`,
in this order. -/
def incident_edges (g : undirected_adjacency_list V E) (v : vertex_handle) :
    List undirected_edge_handle :=
  (List.range (g.degree v)).map (g.get_incident_edge v)

/-- Private member `make_edge(e, v)` once more, `return {e, v, base.target(e)};`,
this time together with the directed edge identities whose endpoint it asks the
base store for: the one call `base.target(e)`. -/
def make_edge_traced (g : undirected_adjacency_list V E) (e : edge_handle) (v : vertex_handle) :
    undirected_edge_handle × List edge_handle :=
  (⟨e, v, g.base.target e⟩, [e])

/-- Member `get_edge(vertex u, vertex v)` once more,
`e = base.get_edge(u, v); return e ? make_edge(e, u) : make_edge(base.get_edge(v, u), v);`,
this time together with the directed edge identities whose endpoint the base
store is asked for during the evaluation. -/
def get_edge_traced (g : undirected_adjacency_list V E) (u v : vertex_handle) :
    undirected_edge_handle × List edge_handle :=
  let e := g.base.get_edge u v
  if e.isSome then g.make_edge_traced e u else g.make_edge_traced (g.base.get_edge v u) v

/-- The directed edge identity is valid: non-null and less than `size()`. -/
def valid_edge (g : undirected_adjacency_list V E) (e : edge_handle) : Bool :=
  match e with
  | none => false
  | some i => decide (i < g.size)

end undirected_adjacency_list

/-- Modelled from the spec: the variadic `constexpr` function `All` of
`origin/type.hpp`, which is not among the sources (only its test `all.cpp` is).
The spec has no text for it beyond naming type predicates as collaborators, so
the model is the conjunction that the name and the static assertions of the test
describe: `All()` is true and `All(b, rest...)` is `b && All(rest...)`.  The
argument list of a call is given as a list. -/
def All : List Bool → Bool
  | [] => true
  | b :: bs => b && All bs

/-! ## Concrete graphs used as inputs -/

namespace sample

/-- One vertex and the self-loop inserted by `add_edge(0, 0, 4)`. -/
def loop : List (call Nat Nat) :=
  [call.add_vertex 0, call.add_edge (some 0) (some 0) 4]

/-- The two `add_edge` calls of the scenario of the spec, on the vertices
`a = 0`, `b = 1`, `c = 2`. -/
def scenario_calls : List (call Nat Nat) :=
  [call.add_edge (some 0) (some 1) 10, call.add_edge (some 1) (some 2) 20]

/-- The scenario of the spec: three fill-constructed vertices `a`, `b`, `c`, then
`add_edge(a, b, 10)` and `add_edge(b, c, 20)`. -/
def scenario : undirected_adjacency_list Nat Nat :=
  run (undirected_adjacency_list.fill_init 3 0) scenario_calls


/-- Two vertices `0` and `1`, no edge. -/
def two_vertices : List (call Nat Nat) :=
  [call.add_vertex 0, call.add_vertex 0]

/-- Two vertices and the edge inserted by `add_edge(0, 1, 7)`. -/
def one_edge : List (call Nat Nat) :=
  two_vertices ++ [call.add_edge (some 0) (some 1) 7]

/-- Two vertices, `add_edge(0, 1, 7)` and then `add_edge(1, 0, 8)`: two edges
between the same pair of vertices. -/
def both_ways : List (call Nat Nat) :=
  one_edge ++ [call.add_edge (some 1) (some 0) 8]

/-- Three vertices and the edge inserted by `add_edge(2, 0, 5)`. -/
def far_edge : List (call Nat Nat) :=
  [call.add_vertex 0, call.add_vertex 0, call.add_vertex 0, call.add_edge (some 2) (some 0) 5]

/-- Three vertices `a = 0`, `b = 1`, `c = 2` and the edges inserted by
`add_edge(a, b, 10)` and `add_edge(b, c, 20)`. -/
def path : List (call Nat Nat) :=
  [call.add_vertex 0, call.add_vertex 0, call.add_vertex 0,
   call.add_edge (some 0) (some 1) 10, call.add_edge (some 1) (some 2) 20]

/-- A third vertex and the edge inserted by `add_edge(1, 2, 9)`, to follow
`two_vertices` and one more call. -/
def later_calls : List (call Nat Nat) :=
  [call.add_vertex 0, call.add_edge (some 1) (some 2) 9]

/-- The graph a sequence of calls builds from the default-constructed graph. -/
def build (cs : List (call Nat Nat)) : undirected_adjacency_list Nat Nat :=
  run undirected_adjacency_list.default_init cs

end sample

end origin

/-! ## The directed base store: selection of records -/

namespace origin

namespace directed_adjacency_list

variable {V E : Type}

theorem mem_select (b : directed_adjacency_list V E) (p : edge_record E → Bool) (i : Nat) :
    i ∈ b.select p ↔ ∃ r, b.edge_records[i]? = some r ∧ p r = true := by
  unfold select
  simp only [List.mem_map, List.mem_filter, Prod.exists]
  constructor
  · rintro ⟨j, r, ⟨hmem, hp⟩, rfl⟩
    exact ⟨r, List.mk_mem_enum_iff_getElem?.1 hmem, hp⟩
  · rintro ⟨r, hr, hp⟩
    exact ⟨i, r, ⟨List.mk_mem_enum_iff_getElem?.2 hr, hp⟩, rfl⟩

theorem select_snoc (vs : List V) (es : List (edge_record E)) (r : edge_record E)
    (p : edge_record E → Bool) :
    (⟨vs, es ++ [r]⟩ : directed_adjacency_list V E).select p
      = (⟨vs, es⟩ : directed_adjacency_list V E).select p ++ (if p r then [es.length] else []) := by
  unfold select
  simp only [List.enum_append, List.filter_append, List.map_append]
  congr 1
  by_cases h : p r = true <;> simp [List.enumFrom, List.filter, h]

theorem select_split (b : directed_adjacency_list V E) (xs ys : List (edge_record E))
    (r : edge_record E) (p : edge_record E → Bool) (hb : b.edge_records = xs ++ r :: ys)
    (hx : ∀ a ∈ xs, p a = false) (hr : p r = true) :
    (b.select p).head? = some xs.length := by
  unfold select
  rw [hb]
  have h0 : (xs.enum.filter fun ir => p ir.2) = [] := by
    rw [List.filter_eq_nil_iff]
    rintro ⟨i, a⟩ hmem
    have := hx a (List.getElem?_mem (List.mk_mem_enum_iff_getElem?.1 hmem))
    simp [this]
  simp [List.enum_append, List.filter_append, h0, List.enumFrom, List.filter, hr]

theorem select_eq_nil (b : directed_adjacency_list V E) (p : edge_record E → Bool)
    (h : ∀ a ∈ b.edge_records, p a = false) : b.select p = [] := by
  cases hs : b.select p with
  | nil => rfl
  | cons i l =>
    have : i ∈ b.select p := by rw [hs]; exact List.mem_cons_self _ _
    obtain ⟨r, hr, hp⟩ := (mem_select b p i).1 this
    have := h r (List.getElem?_mem hr)
    rw [this] at hp; cases hp

theorem source_of_record (b : directed_adjacency_list V E) (i : Nat) (r : edge_record E)
    (h : b.edge_records[i]? = some r) : b.source (some i) = r.source := by
  simp [source, record, h]

theorem target_of_record (b : directed_adjacency_list V E) (i : Nat) (r : edge_record E)
    (h : b.edge_records[i]? = some r) : b.target (some i) = r.target := by
  simp [target, record, h]

theorem get_edge_some (b : directed_adjacency_list V E) (u v : vertex_handle) (i : Nat)
    (h : b.get_edge u v = some i) :
    ∃ r, b.edge_records[i]? = some r ∧ r.source = u ∧ r.target = v := by
  have hmem : i ∈ b.select (fun r => r.source == u && r.target == v) :=
    List.mem_of_mem_head? h
  obtain ⟨r, hr, hp⟩ := (mem_select b _ i).1 hmem
  simp only [Bool.and_eq_true, beq_iff_eq] at hp
  exact ⟨r, hr, hp.1, hp.2⟩

theorem get_edge_eq_none (b : directed_adjacency_list V E) (u v : vertex_handle)
    (h : ∀ r ∈ b.edge_records, ¬ (r.source = u ∧ r.target = v)) : b.get_edge u v = none := by
  unfold get_edge
  rw [select_eq_nil b _ ?_]
  · rfl
  · intro a ha
    have := h a ha
    simpa using this

theorem get_edge_found (b : directed_adjacency_list V E) (u v : vertex_handle)
    (h : ∃ r ∈ b.edge_records, r.source = u ∧ r.target = v) :
    ∃ i, b.get_edge u v = some i := by
  obtain ⟨r, hr, hs, ht⟩ := h
  obtain ⟨n, hn⟩ := List.mem_iff_getElem?.1 hr
  have hmem : n ∈ b.select (fun r => r.source == u && r.target == v) :=
    (mem_select b _ n).2 ⟨r, hn, by simp [hs, ht]⟩
  unfold get_edge
  cases hsel : b.select (fun r => r.source == u && r.target == v) with
  | nil => rw [hsel] at hmem; cases hmem
  | cons i l => exact ⟨i, rfl⟩

theorem get_out_edge_lt (b : directed_adjacency_list V E) (v : vertex_handle) (n : Nat)
    (h : n < b.out_degree v) :
    ∃ i r, b.get_out_edge v n = some i ∧ b.edge_records[i]? = some r ∧ r.source = v := by
  unfold out_degree at h
  have hget : (b.out_edges v)[n]? = some (b.out_edges v)[n] := List.getElem?_eq_getElem h
  have hmem : (b.out_edges v)[n] ∈ b.select (fun r => r.source == v) := List.getElem_mem h
  obtain ⟨r, hr, hp⟩ := (mem_select b _ _).1 hmem
  exact ⟨_, r, hget, hr, by simpa using hp⟩

theorem get_in_edge_lt (b : directed_adjacency_list V E) (v : vertex_handle) (n : Nat)
    (h : n < b.in_degree v) :
    ∃ i r, b.get_in_edge v n = some i ∧ b.edge_records[i]? = some r ∧ r.target = v := by
  unfold in_degree at h
  have hget : (b.in_edges v)[n]? = some (b.in_edges v)[n] := List.getElem?_eq_getElem h
  have hmem : (b.in_edges v)[n] ∈ b.select (fun r => r.target == v) := List.getElem_mem h
  obtain ⟨r, hr, hp⟩ := (mem_select b _ _).1 hmem
  exact ⟨_, r, hget, hr, by simpa using hp⟩

end directed_adjacency_list

/-! ## Effect of the two mutations on the base store -/

namespace undirected_adjacency_list

variable {V E : Type}

theorem add_edge_select (g : undirected_adjacency_list V E) (u v : vertex_handle) (x : E)
    (p : edge_record E → Bool) :
    (g.add_edge u v x).1.base.select p
      = g.base.select p ++ (if p ⟨u, v, x⟩ then [g.size] else []) := by
  obtain ⟨⟨vs, es⟩⟩ := g
  exact directed_adjacency_list.select_snoc vs es ⟨u, v, x⟩ p

theorem add_edge_records (g : undirected_adjacency_list V E) (u v : vertex_handle) (x : E) :
    (g.add_edge u v x).1.base.edge_records = g.base.edge_records ++ [⟨u, v, x⟩] := rfl

theorem add_edge_size (g : undirected_adjacency_list V E) (u v : vertex_handle) (x : E) :
    (g.add_edge u v x).1.size = g.size + 1 := by
  simp [size, directed_adjacency_list.size, add_edge_records]

theorem add_edge_order (g : undirected_adjacency_list V E) (u v : vertex_handle) (x : E) :
    (g.add_edge u v x).1.order = g.order := rfl

theorem add_vertex_size (g : undirected_adjacency_list V E) (x : V) :
    (g.add_vertex x).1.size = g.size := rfl

theorem add_vertex_order (g : undirected_adjacency_list V E) (x : V) :
    (g.add_vertex x).1.order = g.order + 1 := by
  simp [order, directed_adjacency_list.order, add_vertex, directed_adjacency_list.add_vertex]

theorem add_vertex_records (g : undirected_adjacency_list V E) (x : V) :
    (g.add_vertex x).1.base.edge_records = g.base.edge_records := rfl

end undirected_adjacency_list

theorem run_append {V E : Type} (g : undirected_adjacency_list V E) (cs ds : List (call V E)) :
    run g (cs ++ ds) = run (run g cs) ds := by
  simp [run, List.foldl_append]

theorem run_cons {V E : Type} (g : undirected_adjacency_list V E) (c : call V E)
    (cs : List (call V E)) : run g (c :: cs) = run (c.perform g) cs := rfl

theorem run_records {V E : Type} (cs : List (call V E)) (g : undirected_adjacency_list V E) :
    (run g cs).base.edge_records = g.base.edge_records ++ cs.filterMap call.inserted := by
  induction cs generalizing g with
  | nil => simp [run]
  | cons c cs ih =>
    rw [run_cons, ih]
    cases c with
    | add_vertex x =>
      simp [call.perform, call.inserted, undirected_adjacency_list.add_vertex_records]
    | add_edge u v x =>
      simp [call.perform, call.inserted, undirected_adjacency_list.add_edge_records]

theorem run_size {V E : Type} (cs : List (call V E)) (g : undirected_adjacency_list V E) :
    (run g cs).size = g.size + cs.countP call.is_add_edge := by
  induction cs generalizing g with
  | nil => simp [run]
  | cons c cs ih =>
    rw [run_cons, ih]
    cases c with
    | add_vertex x =>
      simp [call.perform, call.is_add_edge, undirected_adjacency_list.add_vertex_size]
    | add_edge u v x =>
      simp [call.perform, call.is_add_edge, undirected_adjacency_list.add_edge_size]
      omega

theorem run_order {V E : Type} (cs : List (call V E)) (g : undirected_adjacency_list V E) :
    (run g cs).order = g.order + cs.countP call.is_add_vertex := by
  induction cs generalizing g with
  | nil => simp [run]
  | cons c cs ih =>
    rw [run_cons, ih]
    cases c with
    | add_vertex x =>
      simp [call.perform, call.is_add_vertex, undirected_adjacency_list.add_vertex_order]
      omega
    | add_edge u v x =>
      simp [call.perform, call.is_add_vertex, undirected_adjacency_list.add_edge_order]

theorem inserted_not_joining {V E : Type} (cs : List (call V E)) (u v : vertex_handle)
    (h : ∀ c ∈ cs, c.joins u v = false) :
    ∀ a ∈ cs.filterMap call.inserted,
      ¬ (a.source = u ∧ a.target = v) ∧ ¬ (a.source = v ∧ a.target = u) := by
  intro a ha
  obtain ⟨c, hc, hca⟩ := List.mem_filterMap.1 ha
  have hj := h c hc
  cases c with
  | add_vertex y => simp [call.inserted] at hca
  | add_edge s t y =>
    simp only [call.inserted, Option.some.injEq] at hca
    subst hca
    simp only [call.joins, Bool.or_eq_false_iff, Bool.and_eq_false_imp, beq_iff_eq,
      beq_eq_false_iff_ne, ne_eq] at hj
    exact ⟨fun ⟨h1, h2⟩ => hj.1 h1 h2, fun ⟨h1, h2⟩ => hj.2 h1 h2⟩

end origin

/-! ## Edge lookup by endpoints -/

namespace origin

namespace undirected_adjacency_list

variable {V E : Type}

/-- Claim C1, as stated, fails on a graph with two edges between the same pair of
vertices.  After `add_vertex`, `add_vertex`, `add_edge(0, 1, 7)` and
`add_edge(1, 0, 8)`, the edge inserted by `add_edge(1, 0, 8)` has identity 1, but
`get_edge(0, 1)` probes `0 → 1` first and returns the handle of identity 0, while
`get_edge(1, 0)` returns the handle of identity 1: the two lookups do not agree on
one underlying edge. -/
theorem get_edge_misses_inserted_edge :
    admissible (default_init : undirected_adjacency_list Nat Nat) sample.both_ways ∧
    ((sample.build sample.one_edge).add_edge (some 1) (some 0) 8).2.edge = some 1 ∧
    (sample.build sample.both_ways).get_edge (some 1) (some 0) = ⟨some 1, some 1, some 0⟩ ∧
    (sample.build sample.both_ways).get_edge (some 0) (some 1) = ⟨some 0, some 0, some 1⟩ ∧
    ((sample.build sample.both_ways).get_edge (some 0) (some 1)).edge
      ≠ ((sample.build sample.one_edge).add_edge (some 1) (some 0) 8).2.edge := by
  decide

/-- Claim C1, amended: for every graph built from the default-constructed graph by
`add_vertex` and `add_edge` calls made on existing vertices, if one of the calls
is `add_edge(u, v, x)` and no other call of the sequence is an `add_edge` between
`u` and `v` (in either order), then the handle that call returned has a non-null
underlying identity, `get_edge(u, v)` and `get_edge(v, u)` both return a handle
with that underlying identity, and either returned handle has
`{source, target} = {u, v}`. -/
theorem get_edge_finds_only_edge (pre post : List (call V E)) (u v : vertex_handle) (x : E)
    (_hadm : admissible (default_init : undirected_adjacency_list V E)
      (pre ++ call.add_edge u v x :: post))
    (honly : ∀ c ∈ pre ++ post, c.joins u v = false) :
    (∃ i, ((run (default_init : undirected_adjacency_list V E) pre).add_edge u v x).2.edge
      = some i) ∧
    ((run (default_init : undirected_adjacency_list V E)
        (pre ++ call.add_edge u v x :: post)).get_edge u v).edge
      = ((run (default_init : undirected_adjacency_list V E) pre).add_edge u v x).2.edge ∧
    ((run (default_init : undirected_adjacency_list V E)
        (pre ++ call.add_edge u v x :: post)).get_edge v u).edge
      = ((run (default_init : undirected_adjacency_list V E) pre).add_edge u v x).2.edge ∧
    ∀ e, (e = (run (default_init : undirected_adjacency_list V E)
          (pre ++ call.add_edge u v x :: post)).get_edge u v ∨
        e = (run (default_init : undirected_adjacency_list V E)
          (pre ++ call.add_edge u v x :: post)).get_edge v u) →
      (e.source = u ∧ e.target = v) ∨ (e.source = v ∧ e.target = u) := by
  generalize hg : run (default_init : undirected_adjacency_list V E)
    (pre ++ call.add_edge u v x :: post) = g
  have hrecs : g.base.edge_records
      = pre.filterMap call.inserted ++ ⟨u, v, x⟩ :: post.filterMap call.inserted := by
    rw [← hg, run_records]
    simp [default_init, call.inserted]
  have hsize : (run (default_init : undirected_adjacency_list V E) pre).size
      = (pre.filterMap call.inserted).length := by
    simp [size, directed_adjacency_list.size, run_records, default_init]
  have hins : ((run (default_init : undirected_adjacency_list V E) pre).add_edge u v x).2.edge
      = some (pre.filterMap call.inserted).length := by
    rw [← hsize]; rfl
  have hpre := inserted_not_joining pre u v (fun c hc => honly c (List.mem_append_left _ hc))
  have hpost := inserted_not_joining post u v (fun c hc => honly c (List.mem_append_right _ hc))
  have huv : g.base.get_edge u v = some (pre.filterMap call.inserted).length := by
    apply directed_adjacency_list.select_split g.base _ _ _ _ hrecs
    · intro a ha
      have := (hpre a ha).1
      simpa using this
    · simp
  have hrec : g.base.edge_records[(pre.filterMap call.inserted).length]? = some ⟨u, v, x⟩ := by
    rw [hrecs, List.getElem?_append_right (Nat.le_refl _)]; simp
  have htgt : g.base.target (some (pre.filterMap call.inserted).length) = v :=
    g.base.target_of_record _ _ hrec
  have h1 : g.get_edge u v = ⟨some (pre.filterMap call.inserted).length, u, v⟩ := by
    simp [get_edge, make_edge, huv, htgt]
  have h2 : g.get_edge v u = ⟨some (pre.filterMap call.inserted).length, u, v⟩ ∨
      g.get_edge v u = ⟨some (pre.filterMap call.inserted).length, v, u⟩ := by
    by_cases hvu : v = u
    · subst hvu; exact Or.inl h1
    · left
      have hnone : g.base.get_edge v u = none := by
        apply g.base.get_edge_eq_none
        intro r hr
        rw [hrecs] at hr
        rcases List.mem_append.1 hr with hr | hr
        · exact (hpre r hr).2
        · rcases List.mem_cons.1 hr with hr | hr
          · subst hr; exact fun h => hvu h.1.symm
          · exact (hpost r hr).2
      simp [get_edge, make_edge, hnone, huv, htgt]
  refine ⟨⟨_, hins⟩, ?_, ?_, ?_⟩
  · rw [h1, hins]
  · rcases h2 with h2 | h2 <;> rw [h2, hins]
  · rintro e (rfl | rfl)
    · rw [h1]; exact Or.inl ⟨rfl, rfl⟩
    · rcases h2 with h2 | h2 <;> rw [h2]
      · exact Or.inl ⟨rfl, rfl⟩
      · exact Or.inr ⟨rfl, rfl⟩

/-- Claim C1, amended, at a concrete graph: two vertices, `add_edge(0, 1, 7)`, then
a third vertex and `add_edge(1, 2, 9)`.  The edge between 0 and 1 is the only one
between them, and both lookups return its identity. -/
theorem get_edge_finds_only_edge_witness :
    admissible (default_init : undirected_adjacency_list Nat Nat)
      (sample.two_vertices ++ call.add_edge (some 0) (some 1) 7 :: sample.later_calls) ∧
    (∀ c ∈ sample.two_vertices ++ sample.later_calls, c.joins (some 0) (some 1) = false) ∧
    ((run (default_init : undirected_adjacency_list Nat Nat)
        (sample.two_vertices ++ call.add_edge (some 0) (some 1) 7 :: sample.later_calls)).get_edge
        (some 0) (some 1)).edge
      = ((run (default_init : undirected_adjacency_list Nat Nat)
          sample.two_vertices).add_edge (some 0) (some 1) 7).2.edge ∧
    ((run (default_init : undirected_adjacency_list Nat Nat)
        (sample.two_vertices ++ call.add_edge (some 0) (some 1) 7 :: sample.later_calls)).get_edge
        (some 1) (some 0)).edge
      = ((run (default_init : undirected_adjacency_list Nat Nat)
          sample.two_vertices).add_edge (some 0) (some 1) 7).2.edge :=
  ⟨by decide, by decide,
    (get_edge_finds_only_edge sample.two_vertices sample.later_calls (some 0) (some 1) 7
      (by decide) (by decide)).2.1,
    (get_edge_finds_only_edge sample.two_vertices sample.later_calls (some 0) (some 1) 7
      (by decide) (by decide)).2.2.1⟩

/-- Claim C2: for every graph and all vertices `u`, `v` (equal or not) such that
the base store holds neither a directed edge `u → v` nor a directed edge `v → u`,
`get_edge(u, v)` returns a handle whose underlying identity is null; in particular
on the default-constructed graph `get_edge(u, v)` is null for every `u`, `v`, and
`empty()` is true. -/
theorem get_edge_null_when_absent :
    (∀ (g : undirected_adjacency_list V E) (u v : vertex_handle),
      (∀ r ∈ g.base.edge_records, ¬ (r.source = u ∧ r.target = v)) →
      (∀ r ∈ g.base.edge_records, ¬ (r.source = v ∧ r.target = u)) →
      (g.get_edge u v).edge = none) ∧
    (∀ u v : vertex_handle,
      ((default_init : undirected_adjacency_list V E).get_edge u v).edge = none) ∧
    (default_init : undirected_adjacency_list V E).empty = true := by
  have key : ∀ (g : undirected_adjacency_list V E) (u v : vertex_handle),
      (∀ r ∈ g.base.edge_records, ¬ (r.source = u ∧ r.target = v)) →
      (∀ r ∈ g.base.edge_records, ¬ (r.source = v ∧ r.target = u)) →
      (g.get_edge u v).edge = none := by
    intro g u v h1 h2
    simp [get_edge, make_edge, g.base.get_edge_eq_none u v h1, g.base.get_edge_eq_none v u h2]
  refine ⟨key, ?_, rfl⟩
  intro u v
  apply key <;> intro r hr <;> cases hr

/-- Claim C2 at a concrete graph: on the path `a - b - c` no directed edge joins
`a = 0` and `c = 2`, and `get_edge(a, c)` is null. -/
theorem get_edge_null_when_absent_witness :
    (∀ r ∈ (sample.build sample.path).base.edge_records,
      ¬ (r.source = some 0 ∧ r.target = some 2)) ∧
    (∀ r ∈ (sample.build sample.path).base.edge_records,
      ¬ (r.source = some 2 ∧ r.target = some 0)) ∧
    ((sample.build sample.path).get_edge (some 0) (some 2)).edge = none :=
  ⟨by decide, by decide,
    get_edge_null_when_absent.1 (sample.build sample.path) (some 0) (some 2)
      (by decide) (by decide)⟩

/-- Claim C3: `get_edge(u, v)` follows the two-probe rule.  If the base store has a
directed edge `u → v`, the base answer for `(u, v)` is non-null and the result is
that answer wrapped with source `u` and target `v`, whether or not a directed edge
`v → u` exists as well.  Otherwise, if the base store has a directed edge `v → u`,
the base answer for `(v, u)` is non-null and the result is that answer wrapped
with source `v` and target `u`. -/
theorem get_edge_two_probe (g : undirected_adjacency_list V E) (u v : vertex_handle) :
    ((∃ r ∈ g.base.edge_records, r.source = u ∧ r.target = v) →
      (∃ i, g.base.get_edge u v = some i) ∧
        g.get_edge u v = ⟨g.base.get_edge u v, u, v⟩) ∧
    ((¬ ∃ r ∈ g.base.edge_records, r.source = u ∧ r.target = v) →
      (∃ r ∈ g.base.edge_records, r.source = v ∧ r.target = u) →
      (∃ i, g.base.get_edge v u = some i) ∧
        g.get_edge u v = ⟨g.base.get_edge v u, v, u⟩) := by
  constructor
  · intro h
    obtain ⟨i, hi⟩ := g.base.get_edge_found u v h
    obtain ⟨r, hr, _, ht⟩ := g.base.get_edge_some u v i hi
    refine ⟨⟨i, hi⟩, ?_⟩
    simp [get_edge, make_edge, hi, g.base.target_of_record i r hr, ht]
  · intro hno h
    obtain ⟨i, hi⟩ := g.base.get_edge_found v u h
    obtain ⟨r, hr, _, ht⟩ := g.base.get_edge_some v u i hi
    have hnone : g.base.get_edge u v = none :=
      g.base.get_edge_eq_none u v (fun r hr hst => hno ⟨r, hr, hst⟩)
    refine ⟨⟨i, hi⟩, ?_⟩
    simp [get_edge, make_edge, hi, hnone, g.base.target_of_record i r hr, ht]

/-- Claim C3 at concrete graphs.  With both `0 → 1` and `1 → 0` stored,
`get_edge(1, 0)` wraps the base answer for `(1, 0)`; with only `0 → 1` stored,
`get_edge(1, 0)` wraps the base answer for `(0, 1)`. -/
theorem get_edge_two_probe_witness :
    ((∃ r ∈ (sample.build sample.both_ways).base.edge_records,
        r.source = some 1 ∧ r.target = some 0) ∧
      (sample.build sample.both_ways).get_edge (some 1) (some 0)
        = ⟨(sample.build sample.both_ways).base.get_edge (some 1) (some 0), some 1, some 0⟩) ∧
    ((¬ ∃ r ∈ (sample.build sample.one_edge).base.edge_records,
        r.source = some 1 ∧ r.target = some 0) ∧
      (∃ r ∈ (sample.build sample.one_edge).base.edge_records,
        r.source = some 0 ∧ r.target = some 1) ∧
      (sample.build sample.one_edge).get_edge (some 1) (some 0)
        = ⟨(sample.build sample.one_edge).base.get_edge (some 0) (some 1), some 0, some 1⟩) :=
  ⟨⟨by decide,
     ((get_edge_two_probe (sample.build sample.both_ways) (some 1) (some 0)).1 (by decide)).2⟩,
   ⟨by decide, by decide,
     ((get_edge_two_probe (sample.build sample.one_edge) (some 1) (some 0)).2
       (by decide) (by decide)).2⟩⟩

end undirected_adjacency_list

end origin

/-! ## Incident edges -/

namespace origin

namespace undirected_adjacency_list

variable {V E : Type}

/-- Claim C4 fails at an in-edge.  On two vertices with the single edge inserted by
`add_edge(0, 1, 7)`, vertex 1 has degree 1 and `get_incident_edge(1, 0)` has the
underlying edge `0 → 1`, whose base source is 0 and not the viewpoint 1; the claim
asks for target 0, the base source, but the returned handle has source 1 and
target 1, the base target. -/
theorem get_incident_edge_in_edge_target :
    (sample.build sample.one_edge).is_vertex (some 1) ∧
    (sample.build sample.one_edge).degree (some 1) = 1 ∧
    ((sample.build sample.one_edge).get_incident_edge (some 1) 0).edge = some 0 ∧
    (sample.build sample.one_edge).base.source (some 0) = some 0 ∧
    (sample.build sample.one_edge).base.target (some 0) = some 1 ∧
    ((sample.build sample.one_edge).get_incident_edge (some 1) 0).source = some 1 ∧
    ((sample.build sample.one_edge).get_incident_edge (some 1) 0).target = some 1 := by
  decide

/-- Claim C5: for every graph, every vertex `v` and every `n < degree(v)`, the
underlying edge of `get_incident_edge(v, n)` is `base.get_out_edge(v, n)` when
`n < out_degree(v)`, an edge the store holds with stored source `v`, and is
`base.get_in_edge(v, n - out_degree(v))` when `out_degree(v) ≤ n`, an edge the
store holds with stored target `v`: out-edges first, then in-edges. -/
theorem get_incident_edge_out_then_in (g : undirected_adjacency_list V E) (v : vertex_handle)
    (n : Nat) (hn : n < g.degree v) :
    (n < g.base.out_degree v →
      (g.get_incident_edge v n).edge = g.base.get_out_edge v n ∧
      ∃ i, g.base.get_out_edge v n = some i ∧ g.base.source (some i) = v) ∧
    (g.base.out_degree v ≤ n →
      (g.get_incident_edge v n).edge = g.base.get_in_edge v (n - g.base.out_degree v) ∧
      ∃ i, g.base.get_in_edge v (n - g.base.out_degree v) = some i ∧
        g.base.target (some i) = v) := by
  constructor
  · intro h
    obtain ⟨i, r, hi, hr, hs⟩ := g.base.get_out_edge_lt v n h
    refine ⟨by simp [get_incident_edge, h], i, hi, ?_⟩
    rw [g.base.source_of_record i r hr, hs]
  · intro h
    have hlt : n - g.base.out_degree v < g.base.in_degree v := by
      unfold degree directed_adjacency_list.degree at hn
      omega
    obtain ⟨i, r, hi, hr, ht⟩ := g.base.get_in_edge_lt v _ hlt
    refine ⟨by simp [get_incident_edge, Nat.not_lt.2 h], i, hi, ?_⟩
    rw [g.base.target_of_record i r hr, ht]

/-- Claim C5 at a concrete graph, the path `a - b - c`: vertex `b = 1` has one
out-edge and one in-edge; index 0 is its out-edge slot 0 and index 1 is its
in-edge slot 0. -/
theorem get_incident_edge_out_then_in_witness :
    (0 < (sample.build sample.path).degree (some 1) ∧
      0 < (sample.build sample.path).base.out_degree (some 1) ∧
      ((sample.build sample.path).get_incident_edge (some 1) 0).edge
        = (sample.build sample.path).base.get_out_edge (some 1) 0) ∧
    (1 < (sample.build sample.path).degree (some 1) ∧
      (sample.build sample.path).base.out_degree (some 1) ≤ 1 ∧
      ((sample.build sample.path).get_incident_edge (some 1) 1).edge
        = (sample.build sample.path).base.get_in_edge (some 1)
            (1 - (sample.build sample.path).base.out_degree (some 1))) :=
  ⟨⟨by decide, by decide,
     ((get_incident_edge_out_then_in (sample.build sample.path) (some 1) 0 (by decide)).1
       (by decide)).1⟩,
   ⟨by decide, by decide,
     ((get_incident_edge_out_then_in (sample.build sample.path) (some 1) 1 (by decide)).2
       (by decide)).1⟩⟩

/-- Claim C6 fails for a handle returned by `get_incident_edge`.  On three vertices
with the single edge inserted by `add_edge(2, 0, 5)`, vertex 0 has degree 1 and
`get_incident_edge(0, 0)` is the non-null handle `{0, 0, 0}`: its endpoints are
`{0, 0}`, while the underlying edge has base source 2 and base target 0. -/
theorem get_incident_edge_breaks_endpoint_invariant :
    admissible (default_init : undirected_adjacency_list Nat Nat) sample.far_edge ∧
    (sample.build sample.far_edge).degree (some 0) = 1 ∧
    (sample.build sample.far_edge).get_incident_edge (some 0) 0 = ⟨some 0, some 0, some 0⟩ ∧
    (sample.build sample.far_edge).base.source (some 0) = some 2 ∧
    (sample.build sample.far_edge).base.target (some 0) = some 0 := by
  decide

/-! ## Mutation and counting -/

/-- Claim C7: for every graph built from the default-constructed graph by a finite
sequence of `add_vertex` and `add_edge` calls, each `add_edge` made on existing
vertices, `size()` is the number of `add_edge` calls and `order()` is the number
of `add_vertex` calls.  The remaining members are queries: they return no graph,
so they create neither vertices nor edges. -/
theorem size_order_count_calls (cs : List (call V E))
    (_h : admissible (default_init : undirected_adjacency_list V E) cs) :
    (run (default_init : undirected_adjacency_list V E) cs).size = cs.countP call.is_add_edge ∧
    (run (default_init : undirected_adjacency_list V E) cs).order
      = cs.countP call.is_add_vertex := by
  refine ⟨?_, ?_⟩
  · rw [run_size]; simp [default_init, size, directed_adjacency_list.size]
  · rw [run_order]; simp [default_init, order, directed_adjacency_list.order]

/-- Claim C7 at a concrete sequence: three `add_vertex` calls and two `add_edge`
calls give order 3 and size 2. -/
theorem size_order_count_calls_witness :
    admissible (default_init : undirected_adjacency_list Nat Nat) sample.path ∧
    List.countP call.is_add_edge sample.path = 2 ∧
    List.countP call.is_add_vertex sample.path = 3 ∧
    (run (default_init : undirected_adjacency_list Nat Nat) sample.path).size
      = List.countP call.is_add_edge sample.path ∧
    (run (default_init : undirected_adjacency_list Nat Nat) sample.path).order
      = List.countP call.is_add_vertex sample.path :=
  ⟨by decide, by decide, by decide, size_order_count_calls sample.path (by decide)⟩

/-- Claim C8: for every graph and existing vertices `u`, `v` (equal or not),
`add_edge(u, v, x)` appends exactly one directed record `u → v` with value `x` to
the base store, leaves the vertices as they are, and returns the handle with
source `u`, target `v` and the identity of the new record as underlying edge;
there is no uniqueness check, so a second `add_edge(u, v, y)` returns a handle
with a different underlying identity and the size has grown by 2. -/
theorem add_edge_inserts_one (g : undirected_adjacency_list V E) (u v : vertex_handle) (x y : E)
    (_hu : g.is_vertex u) (_hv : g.is_vertex v) :
    (g.add_edge u v x).1.base.edge_records = g.base.edge_records ++ [⟨u, v, x⟩] ∧
    (g.add_edge u v x).1.base.vertex_values = g.base.vertex_values ∧
    (g.add_edge u v x).2 = ⟨some g.size, u, v⟩ ∧
    (g.add_edge u v x).1.base.record (g.add_edge u v x).2.edge = some ⟨u, v, x⟩ ∧
    (g.add_edge u v x).1.size = g.size + 1 ∧
    ((g.add_edge u v x).1.add_edge u v y).2.edge ≠ (g.add_edge u v x).2.edge ∧
    ((g.add_edge u v x).1.add_edge u v y).1.size = g.size + 2 := by
  have hrec : (g.add_edge u v x).1.base.record (some g.size) = some ⟨u, v, x⟩ := by
    simp [directed_adjacency_list.record, add_edge_records, size, directed_adjacency_list.size]
  refine ⟨rfl, rfl, ?_, hrec, add_edge_size g u v x, ?_, ?_⟩
  · show (⟨some g.size, u, (g.add_edge u v x).1.base.target (some g.size)⟩ :
      undirected_edge_handle) = _
    simp [directed_adjacency_list.target, hrec]
  · show some (g.add_edge u v x).1.size ≠ some g.size
    rw [add_edge_size]; simp
  · rw [add_edge_size, add_edge_size]

/-- Claim C8 at a concrete graph: on two vertices with the edge `0 → 1` already
stored, `add_edge(0, 1, 3)` returns the handle `{1, 0, 1}` and a further
`add_edge(0, 1, 4)` brings the size to 3. -/
theorem add_edge_inserts_one_witness :
    (sample.build sample.one_edge).is_vertex (some 0) ∧
    (sample.build sample.one_edge).is_vertex (some 1) ∧
    ((sample.build sample.one_edge).add_edge (some 0) (some 1) 3).2
      = ⟨some (sample.build sample.one_edge).size, some 0, some 1⟩ ∧
    (((sample.build sample.one_edge).add_edge (some 0) (some 1) 3).1.add_edge
        (some 0) (some 1) 4).1.size
      = (sample.build sample.one_edge).size + 2 :=
  ⟨by decide, by decide,
    (add_edge_inserts_one (sample.build sample.one_edge) (some 0) (some 1) 3 4
      (by decide) (by decide)).2.2.1,
    (add_edge_inserts_one (sample.build sample.one_edge) (some 0) (some 1) 3 4
      (by decide) (by decide)).2.2.2.2.2.2⟩

/-- Claim C9: for every graph and every vertex `v` of it, the self-loop
`add_edge(v, v, x)` increases `size()` by exactly 1 and `degree(v)` by exactly 2;
and when `v` had no incident edge before, `get_incident_edge(v, 0)` (the out-edge
slot) and `get_incident_edge(v, 1)` (the in-edge slot at base in-edge index 0)
both have the new directed edge as underlying edge. -/
theorem add_edge_self_loop (g : undirected_adjacency_list V E) (v : vertex_handle) (x : E)
    (_hv : g.is_vertex v) :
    (g.add_edge v v x).1.size = g.size + 1 ∧
    (g.add_edge v v x).1.degree v = g.degree v + 2 ∧
    (g.degree v = 0 →
      ((g.add_edge v v x).1.get_incident_edge v 0).edge = (g.add_edge v v x).2.edge ∧
      ((g.add_edge v v x).1.get_incident_edge v 1).edge = (g.add_edge v v x).2.edge ∧
      (g.add_edge v v x).2.edge = some g.size) := by
  have hout : (g.add_edge v v x).1.base.out_edges v = g.base.out_edges v ++ [g.size] := by
    simp [directed_adjacency_list.out_edges, add_edge_select]
  have hin : (g.add_edge v v x).1.base.in_edges v = g.base.in_edges v ++ [g.size] := by
    simp [directed_adjacency_list.in_edges, add_edge_select]
  refine ⟨add_edge_size g v v x, ?_, ?_⟩
  · simp only [degree, directed_adjacency_list.degree, directed_adjacency_list.out_degree,
      directed_adjacency_list.in_degree, hout, hin, List.length_append, List.length_singleton]
    omega
  · intro h0
    simp only [degree, directed_adjacency_list.degree, directed_adjacency_list.out_degree,
      directed_adjacency_list.in_degree] at h0
    have ho : g.base.out_edges v = [] := List.length_eq_zero.1 (by omega)
    have hi : g.base.in_edges v = [] := List.length_eq_zero.1 (by omega)
    have he : (g.add_edge v v x).2.edge = some g.size := rfl
    refine ⟨?_, ?_, he⟩
    · rw [he]
      simp [get_incident_edge, directed_adjacency_list.out_degree,
        directed_adjacency_list.get_out_edge, hout, ho]
    · rw [he]
      simp [get_incident_edge, directed_adjacency_list.out_degree,
        directed_adjacency_list.get_in_edge, hout, ho, hin, hi]

/-- Claim C9 at a concrete graph: on the path `a - b - c` extended by a fourth,
isolated vertex 3, the self-loop `add_edge(3, 3, 6)` raises the degree of 3 from 0
to 2, and both incident slots of 3 hold the new edge. -/
theorem add_edge_self_loop_witness :
    (sample.build (sample.path ++ [call.add_vertex 0])).is_vertex (some 3) ∧
    (sample.build (sample.path ++ [call.add_vertex 0])).degree (some 3) = 0 ∧
    ((sample.build (sample.path ++ [call.add_vertex 0])).add_edge (some 3) (some 3) 6).1.degree
        (some 3)
      = (sample.build (sample.path ++ [call.add_vertex 0])).degree (some 3) + 2 ∧
    (((sample.build (sample.path ++ [call.add_vertex 0])).add_edge
        (some 3) (some 3) 6).1.get_incident_edge (some 3) 0).edge
      = ((sample.build (sample.path ++ [call.add_vertex 0])).add_edge (some 3) (some 3) 6).2.edge ∧
    (((sample.build (sample.path ++ [call.add_vertex 0])).add_edge
        (some 3) (some 3) 6).1.get_incident_edge (some 3) 1).edge
      = ((sample.build (sample.path ++ [call.add_vertex 0])).add_edge (some 3) (some 3) 6).2.edge :=
  ⟨by decide, by decide,
    (add_edge_self_loop (sample.build (sample.path ++ [call.add_vertex 0])) (some 3) 6
      (by decide)).2.1,
    ((add_edge_self_loop (sample.build (sample.path ++ [call.add_vertex 0])) (some 3) 6
      (by decide)).2.2 (by decide)).1,
    ((add_edge_self_loop (sample.build (sample.path ++ [call.add_vertex 0])) (some 3) 6
      (by decide)).2.2 (by decide)).2.1⟩

/-- Claim C10: for every graph and every vertex `v`, `degree(v)`, which forwards to
the degree of the base store, equals `base.out_degree(v) + base.in_degree(v)`, and
this sum bounds the index range of `get_incident_edge`: every `n` below it yields
a handle whose underlying edge is an edge of the graph. -/
theorem degree_eq_out_plus_in (g : undirected_adjacency_list V E) (v : vertex_handle) :
    g.degree v = g.base.out_degree v + g.base.in_degree v ∧
    ∀ n, n < g.base.out_degree v + g.base.in_degree v →
      ∃ i, (g.get_incident_edge v n).edge = some i ∧ i < g.size := by
  refine ⟨rfl, ?_⟩
  intro n hn
  by_cases h : n < g.base.out_degree v
  · obtain ⟨i, r, hi, hr, _⟩ := g.base.get_out_edge_lt v n h
    refine ⟨i, by simp [get_incident_edge, h, hi], ?_⟩
    exact (List.getElem?_eq_some.1 hr).1
  · obtain ⟨i, r, hi, hr, _⟩ := g.base.get_in_edge_lt v (n - g.base.out_degree v) (by omega)
    refine ⟨i, by simp [get_incident_edge, h, hi], ?_⟩
    exact (List.getElem?_eq_some.1 hr).1

/-- Claim C10 at a concrete graph, the path `a - b - c`: vertex `b = 1` has
out-degree 1, in-degree 1 and degree 2, and index 1 is within the range of
`get_incident_edge`. -/
theorem degree_eq_out_plus_in_witness :
    (sample.build sample.path).base.out_degree (some 1) = 1 ∧
    (sample.build sample.path).base.in_degree (some 1) = 1 ∧
    (sample.build sample.path).degree (some 1) = 2 ∧
    ∃ i, ((sample.build sample.path).get_incident_edge (some 1) 1).edge = some i ∧
      i < (sample.build sample.path).size :=
  ⟨by decide, by decide, by decide,
    (degree_eq_out_plus_in (sample.build sample.path) (some 1)).2 1 (by decide)⟩

end undirected_adjacency_list

end origin

/-! ## The edges by index, and the two edge ranges -/

namespace origin

theorem countP_or_of_disjoint {α : Type} (p q : α → Bool) (l : List α)
    (h : ∀ a ∈ l, ¬ (p a = true ∧ q a = true)) :
    l.countP (fun a => p a || q a) = l.countP p + l.countP q := by
  induction l with
  | nil => rfl
  | cons a l ih =>
    have ih1 := ih (fun b hb => h b (List.mem_cons_of_mem _ hb))
    have ha := h a (List.mem_cons_self _ _)
    simp only [List.countP_cons, ih1]
    cases hp : p a <;> cases hq : q a <;> simp_all <;> omega

namespace directed_adjacency_list

variable {V E : Type}

theorem select_length (b : directed_adjacency_list V E) (p : edge_record E → Bool) :
    (b.select p).length = b.edge_records.countP p := by
  unfold select
  rw [List.length_map, ← List.countP_eq_length_filter]
  conv_rhs => rw [← List.enum_map_snd b.edge_records, List.countP_map]
  rfl

theorem record_lt (b : directed_adjacency_list V E) (n : Nat) (h : n < b.size) :
    ∃ r, b.edge_records[n]? = some r := ⟨_, List.getElem?_eq_getElem h⟩

end directed_adjacency_list

namespace undirected_adjacency_list

variable {V E : Type}

theorem get_edge_nth_of_record (g : undirected_adjacency_list V E) (n : Nat) (r : edge_record E)
    (h : g.base.edge_records[n]? = some r) : g.get_edge_nth n = ⟨some n, r.source, r.target⟩ := by
  simp [get_edge_nth, make_edge_src, make_edge, g.base.source_of_record n r h,
    g.base.target_of_record n r h]

theorem stored_edges_eq (g : undirected_adjacency_list V E) :
    g.stored_edges
      = g.base.edge_records.enum.map fun ir => ⟨some ir.1, ir.2.source, ir.2.target⟩ := by
  unfold stored_edges size directed_adjacency_list.size
  rw [← List.enum_map_fst g.base.edge_records, List.map_map]
  apply List.map_congr_left
  rintro ⟨i, r⟩ hmem
  exact g.get_edge_nth_of_record i r (List.mk_mem_enum_iff_getElem?.1 hmem)

theorem stored_edges_countP (g : undirected_adjacency_list V E)
    (p : undirected_edge_handle → Bool) (q : edge_record E → Bool)
    (h : ∀ (i : Nat) (r : edge_record E), p ⟨some i, r.source, r.target⟩ = q r) :
    g.stored_edges.countP p = g.base.edge_records.countP q := by
  rw [stored_edges_eq, List.countP_map]
  conv_rhs => rw [← List.enum_map_snd g.base.edge_records, List.countP_map]
  apply List.countP_congr
  rintro ⟨i, r⟩ _
  simp [h i r]

/-- Claim C11, as stated, fails.  On one vertex with the self-loop inserted by
`add_edge(0, 0, 4)`, `degree(0)` is 2; `edges()` is the empty range, so it holds no
edge with source or target 0, and even among the handles `get_edge(n)`,
`n < size()`, only one has source or target 0. -/
theorem degree_differs_from_edges_count :
    (sample.build sample.loop).is_vertex (some 0) ∧
    (sample.build sample.loop).degree (some 0) = 2 ∧
    (sample.build sample.loop).edges.countP
      (fun e => (sample.build sample.loop).source e == some 0 ||
        (sample.build sample.loop).target e == some 0) = 0 ∧
    (sample.build sample.loop).stored_edges.countP
      (fun e => (sample.build sample.loop).source e == some 0 ||
        (sample.build sample.loop).target e == some 0) = 1 := by
  decide

/-- Claim C11, amended: for every graph and every vertex `v`, `degree(v)` equals
the number of indices `n < size()` whose handle `get_edge(n)` has source `v` plus
the number of indices `n < size()` whose handle `get_edge(n)` has target `v`, so
that a self-loop at `v` counts twice; when the graph has no self-loop at `v`, this
is the number of handles `get_edge(n)`, `n < size()`, with source `v` or target
`v`.  Nothing is said about the range `edges()`. -/
theorem degree_counts_stored_edges (g : undirected_adjacency_list V E) (v : vertex_handle) :
    g.degree v = g.stored_edges.countP (fun e => g.source e == v)
      + g.stored_edges.countP (fun e => g.target e == v) ∧
    ((∀ r ∈ g.base.edge_records, ¬ (r.source = v ∧ r.target = v)) →
      g.degree v = g.stored_edges.countP (fun e => g.source e == v || g.target e == v)) := by
  have hs : g.stored_edges.countP (fun e => g.source e == v)
      = g.base.edge_records.countP (fun r => r.source == v) :=
    g.stored_edges_countP _ _ (fun _ _ => rfl)
  have ht : g.stored_edges.countP (fun e => g.target e == v)
      = g.base.edge_records.countP (fun r => r.target == v) :=
    g.stored_edges_countP _ _ (fun _ _ => rfl)
  have hd : g.degree v = g.base.edge_records.countP (fun r => r.source == v)
      + g.base.edge_records.countP (fun r => r.target == v) := by
    simp only [degree, directed_adjacency_list.degree, directed_adjacency_list.out_degree,
      directed_adjacency_list.in_degree, directed_adjacency_list.out_edges,
      directed_adjacency_list.in_edges, directed_adjacency_list.select_length]
  refine ⟨by rw [hs, ht, hd], ?_⟩
  intro hloop
  have hst : g.stored_edges.countP (fun e => g.source e == v || g.target e == v)
      = g.base.edge_records.countP (fun r => r.source == v || r.target == v) :=
    g.stored_edges_countP _ _ (fun _ _ => rfl)
  rw [hst, hd]
  symm
  apply countP_or_of_disjoint
  intro r hr hboth
  apply hloop r hr
  simpa using hboth

/-- Claim C11, amended, at a concrete graph, the path `a - b - c`: no self-loop at
`b = 1`, and the degree of `b` is the number of handles `get_edge(n)` with source
or target `b`, which is 2. -/
theorem degree_counts_stored_edges_witness :
    (∀ r ∈ (sample.build sample.path).base.edge_records,
      ¬ (r.source = some 1 ∧ r.target = some 1)) ∧
    (sample.build sample.path).stored_edges.countP
      (fun e => (sample.build sample.path).source e == some 1 ||
        (sample.build sample.path).target e == some 1) = 2 ∧
    (sample.build sample.path).degree (some 1)
      = (sample.build sample.path).stored_edges.countP
          (fun e => (sample.build sample.path).source e == some 1 ||
            (sample.build sample.path).target e == some 1) :=
  ⟨by decide, by decide,
    (degree_counts_stored_edges (sample.build sample.path) (some 1)).2 (by decide)⟩

/-- Claim C12 fails wherever a vertex has an incident edge.  On two vertices with
the edge inserted by `add_edge(0, 1, 7)`, `degree(0)` is 1 and
`get_incident_edge(0, 0)` is the handle `{0, 0, 1}`, but `edges(0)` is the range
between two null pointers and produces no element. -/
theorem edges_at_produces_nothing :
    (sample.build sample.one_edge).is_vertex (some 0) ∧
    (sample.build sample.one_edge).degree (some 0) = 1 ∧
    (sample.build sample.one_edge).get_incident_edge (some 0) 0 = ⟨some 0, some 0, some 1⟩ ∧
    (sample.build sample.one_edge).incident_edges (some 0) = [⟨some 0, some 0, some 1⟩] ∧
    (sample.build sample.one_edge).edges_at (some 0) = [] ∧
    ((sample.build sample.one_edge).edges_at (some 0)).length = 0 := by
  decide

/-- Claim C13 fails wherever the graph has an edge.  On the path `a - b - c`,
`size()` is 2 and the handles by index are `{0, 0, 1}` and `{1, 1, 2}`, but
`edges()` is the range between two null pointers and produces no element. -/
theorem edges_produces_nothing :
    (sample.build sample.path).size = 2 ∧
    (sample.build sample.path).stored_edges = [⟨some 0, some 0, some 1⟩, ⟨some 1, some 1, some 2⟩] ∧
    (sample.build sample.path).edges = [] ∧
    (sample.build sample.path).edges.length = 0 := by
  decide

end undirected_adjacency_list

end origin

/-! ## Edge values, index ranges and the frame of the mutations -/

namespace origin

theorem length_filterMap_inserted {V E : Type} (cs : List (call V E)) :
    (cs.filterMap call.inserted).length = cs.countP call.is_add_edge := by
  induction cs with
  | nil => rfl
  | cons c cs ih =>
    cases c with
    | add_vertex x => simpa [call.inserted, call.is_add_edge] using ih
    | add_edge u v x => simp [call.inserted, call.is_add_edge, ih]

namespace undirected_adjacency_list

variable {V E : Type}

theorem get_edge_after_only_insert (g0 : undirected_adjacency_list V E)
    (pre post : List (call V E)) (u v : vertex_handle) (x : E)
    (h0 : ∀ r ∈ g0.base.edge_records,
      ¬ (r.source = u ∧ r.target = v) ∧ ¬ (r.source = v ∧ r.target = u))
    (honly : ∀ c ∈ pre ++ post, c.joins u v = false) :
    (run g0 (pre ++ call.add_edge u v x :: post)).base.record
        ((run g0 (pre ++ call.add_edge u v x :: post)).get_edge u v).edge = some ⟨u, v, x⟩ ∧
    (run g0 (pre ++ call.add_edge u v x :: post)).base.record
        ((run g0 (pre ++ call.add_edge u v x :: post)).get_edge v u).edge = some ⟨u, v, x⟩ := by
  generalize hg : run g0 (pre ++ call.add_edge u v x :: post) = g
  generalize hA : g0.base.edge_records ++ pre.filterMap call.inserted = A
  have hrecs : g.base.edge_records = A ++ ⟨u, v, x⟩ :: post.filterMap call.inserted := by
    rw [← hg, run_records, ← hA]
    simp [call.inserted]
  have hpre := inserted_not_joining pre u v (fun c hc => honly c (List.mem_append_left _ hc))
  have hpost := inserted_not_joining post u v (fun c hc => honly c (List.mem_append_right _ hc))
  have hAno : ∀ a ∈ A, ¬ (a.source = u ∧ a.target = v) ∧ ¬ (a.source = v ∧ a.target = u) := by
    intro a ha
    rw [← hA] at ha
    rcases List.mem_append.1 ha with ha | ha
    · exact h0 a ha
    · exact hpre a ha
  have huv : g.base.get_edge u v = some A.length := by
    apply directed_adjacency_list.select_split g.base _ _ _ _ hrecs
    · intro a ha
      have := (hAno a ha).1
      simpa using this
    · simp
  have hrec : g.base.record (some A.length) = some ⟨u, v, x⟩ := by
    simp only [directed_adjacency_list.record, Option.some_bind]
    rw [hrecs, List.getElem?_append_right (Nat.le_refl _)]; simp
  have h1 : (g.get_edge u v).edge = some A.length := by
    simp [get_edge, make_edge, huv]
  have h2 : (g.get_edge v u).edge = some A.length := by
    by_cases hvu : v = u
    · subst hvu; exact h1
    · have hnone : g.base.get_edge v u = none := by
        apply g.base.get_edge_eq_none
        intro r hr
        rw [hrecs] at hr
        rcases List.mem_append.1 hr with hr | hr
        · exact (hAno r hr).2
        · rcases List.mem_cons.1 hr with hr | hr
          · subst hr; exact fun h => hvu h.1.symm
          · exact (hpost r hr).2
      simp [get_edge, make_edge, hnone, huv]
  rw [h1, h2]
  exact ⟨hrec, hrec⟩

/-- Claim C14: edge values do not depend on the viewpoint.  For every graph built
from a graph with no edge between `u` and `v` (any constructed graph) by
`add_vertex` and `add_edge` calls, one of them `add_edge(u, v, x)` and no other
one between `u` and `v`, indexing the graph by `get_edge(u, v)` and by
`get_edge(v, u)` both yield `x`.  In the scenario of the spec, three
fill-constructed vertices `a`, `b`, `c` with `add_edge(a, b, 10)` and
`add_edge(b, c, 20)`: order 3, size 2, degrees 1, 2, 1, value 10 at
`get_edge(a, b)`, value 20 at `get_edge(c, b)`, and `get_edge(a, c)` is null. -/
theorem edge_value_viewpoint_independent :
    (∀ (g0 : undirected_adjacency_list V E) (pre post : List (call V E))
        (u v : vertex_handle) (x : E),
      (∀ r ∈ g0.base.edge_records,
        ¬ (r.source = u ∧ r.target = v) ∧ ¬ (r.source = v ∧ r.target = u)) →
      (∀ c ∈ pre ++ post, c.joins u v = false) →
      (run g0 (pre ++ call.add_edge u v x :: post)).edge_value
          ((run g0 (pre ++ call.add_edge u v x :: post)).get_edge u v) = some x ∧
      (run g0 (pre ++ call.add_edge u v x :: post)).edge_value
          ((run g0 (pre ++ call.add_edge u v x :: post)).get_edge v u) = some x) ∧
    (sample.scenario.order = 3 ∧ sample.scenario.size = 2 ∧
      sample.scenario.degree (some 0) = 1 ∧ sample.scenario.degree (some 1) = 2 ∧
      sample.scenario.degree (some 2) = 1 ∧
      sample.scenario.edge_value (sample.scenario.get_edge (some 0) (some 1)) = some 10 ∧
      sample.scenario.edge_value (sample.scenario.get_edge (some 2) (some 1)) = some 20 ∧
      (sample.scenario.get_edge (some 0) (some 2)).edge = none) := by
  refine ⟨?_, by decide⟩
  intro g0 pre post u v x h0 honly
  obtain ⟨h1, h2⟩ := get_edge_after_only_insert g0 pre post u v x h0 honly
  simp [edge_value, directed_adjacency_list.edge_value, h1, h2]

/-- Claim C14 at the scenario of the spec, read as calls on the fill-constructed
graph: `add_edge(b, c, 20)` is the only edge between `b = 1` and `c = 2`, and both
`get_edge(b, c)` and `get_edge(c, b)` give the value 20. -/
theorem edge_value_viewpoint_independent_witness :
    (∀ r ∈ (fill_init 3 0 : undirected_adjacency_list Nat Nat).base.edge_records,
      ¬ (r.source = some 1 ∧ r.target = some 2) ∧ ¬ (r.source = some 2 ∧ r.target = some 1)) ∧
    (∀ c ∈ [call.add_edge (some 0) (some 1) 10] ++ ([] : List (call Nat Nat)),
      c.joins (some 1) (some 2) = false) ∧
    (run (fill_init 3 0 : undirected_adjacency_list Nat Nat)
        ([call.add_edge (some 0) (some 1) 10] ++ call.add_edge (some 1) (some 2) 20 :: [])).edge_value
      ((run (fill_init 3 0 : undirected_adjacency_list Nat Nat)
        ([call.add_edge (some 0) (some 1) 10] ++ call.add_edge (some 1) (some 2) 20 :: [])).get_edge
          (some 2) (some 1)) = some 20 :=
  ⟨by decide, by decide,
    (edge_value_viewpoint_independent.1 (fill_init 3 0 : undirected_adjacency_list Nat Nat)
      [call.add_edge (some 0) (some 1) 10] [] (some 1) (some 2) 20 (by decide) (by decide)).2⟩

/-- Claim C16: for every graph and every `n < size()`, `get_edge(n)` is the handle
with underlying identity `n`, source `base.source(n)` and target `base.target(n)`,
the stored endpoints of the record `n`; and in a graph built from the
default-constructed graph by `add_vertex` and `add_edge` calls on existing
vertices, if the `n`-th `add_edge` call (counting from 0) was `add_edge(u, v, x)`
then `get_edge(n)` has source `u` and target `v`. -/
theorem get_edge_nth_in_range :
    (∀ (g : undirected_adjacency_list V E) (n : Nat), n < g.size →
      g.get_edge_nth n = ⟨some n, g.base.source (some n), g.base.target (some n)⟩ ∧
      ∃ r, g.base.edge_records[n]? = some r ∧
        g.source (g.get_edge_nth n) = r.source ∧ g.target (g.get_edge_nth n) = r.target) ∧
    (∀ (pre post : List (call V E)) (u v : vertex_handle) (x : E),
      admissible (default_init : undirected_adjacency_list V E)
        (pre ++ call.add_edge u v x :: post) →
      (run (default_init : undirected_adjacency_list V E)
          (pre ++ call.add_edge u v x :: post)).get_edge_nth (pre.countP call.is_add_edge)
        = ⟨some (pre.countP call.is_add_edge), u, v⟩) := by
  constructor
  · intro g n hn
    refine ⟨rfl, ?_⟩
    obtain ⟨r, hr⟩ := g.base.record_lt n hn
    refine ⟨r, hr, ?_, ?_⟩
    · rw [g.get_edge_nth_of_record n r hr]; rfl
    · rw [g.get_edge_nth_of_record n r hr]; rfl
  · intro pre post u v x _
    have hrec := get_edge_nth_of_record
      (run (default_init : undirected_adjacency_list V E) (pre ++ call.add_edge u v x :: post))
      (pre.countP call.is_add_edge) ⟨u, v, x⟩ (by
        rw [run_records, ← length_filterMap_inserted]
        simp only [default_init, List.nil_append, List.filterMap_append, List.filterMap_cons,
          call.inserted]
        rw [List.getElem?_append_right (Nat.le_refl _)]; simp)
    exact hrec

/-- Claim C16 at a concrete graph, the path `a - b - c`: `get_edge(1)` is the
handle of the record 1, and the call `add_edge(1, 2, 20)`, the `add_edge` call
number 1, gives it source 1 and target 2. -/
theorem get_edge_nth_in_range_witness :
    (1 < (sample.build sample.path).size ∧
      (sample.build sample.path).get_edge_nth 1
        = ⟨some 1, (sample.build sample.path).base.source (some 1),
            (sample.build sample.path).base.target (some 1)⟩) ∧
    (admissible (default_init : undirected_adjacency_list Nat Nat)
        ([call.add_vertex 0, call.add_vertex 0, call.add_vertex 0,
            call.add_edge (some 0) (some 1) 10] ++ call.add_edge (some 1) (some 2) 20 :: []) ∧
      (run (default_init : undirected_adjacency_list Nat Nat)
          ([call.add_vertex 0, call.add_vertex 0, call.add_vertex 0,
            call.add_edge (some 0) (some 1) 10] ++ call.add_edge (some 1) (some 2) 20 :: [])).get_edge_nth
          (List.countP call.is_add_edge
            [call.add_vertex 0, call.add_vertex 0, call.add_vertex (0 : Nat),
              (call.add_edge (some 0) (some 1) 10 : call Nat Nat)])
        = ⟨some (List.countP call.is_add_edge
            [call.add_vertex 0, call.add_vertex 0, call.add_vertex (0 : Nat),
              (call.add_edge (some 0) (some 1) 10 : call Nat Nat)]), some 1, some 2⟩) :=
  ⟨⟨by decide, (get_edge_nth_in_range.1 (sample.build sample.path) 1 (by decide)).1⟩,
   ⟨by decide,
    get_edge_nth_in_range.2
      [call.add_vertex 0, call.add_vertex 0, call.add_vertex 0,
        call.add_edge (some 0) (some 1) 10] [] (some 1) (some 2) 20 (by decide)⟩⟩

end undirected_adjacency_list

end origin

namespace origin

namespace undirected_adjacency_list

variable {V E : Type}

theorem add_edge_record_lt (g : undirected_adjacency_list V E) (u v : vertex_handle) (y : E)
    (n : Nat) (hn : n < g.size) :
    (g.add_edge u v y).1.base.record (some n) = g.base.record (some n) := by
  simp only [directed_adjacency_list.record, Option.some_bind, add_edge_records]
  exact List.getElem?_append_left hn

theorem add_vertex_value_lt (g : undirected_adjacency_list V E) (x : V) (w : vertex_handle)
    (hw : g.is_vertex w) : (g.add_vertex x).1.vertex_value w = g.vertex_value w := by
  obtain ⟨i, rfl, hi⟩ := hw
  simp only [vertex_value, directed_adjacency_list.vertex_value, Option.some_bind, add_vertex,
    directed_adjacency_list.add_vertex]
  exact List.getElem?_append_left hi

theorem add_edge_degree_other (g : undirected_adjacency_list V E) (u v : vertex_handle) (y : E)
    (z : vertex_handle) (hu : z ≠ u) (hv : z ≠ v) :
    (g.add_edge u v y).1.degree z = g.degree z := by
  have hout : (g.add_edge u v y).1.base.out_edges z = g.base.out_edges z := by
    simp [directed_adjacency_list.out_edges, add_edge_select, Ne.symm hu]
  have hin : (g.add_edge u v y).1.base.in_edges z = g.base.in_edges z := by
    simp [directed_adjacency_list.in_edges, add_edge_select, Ne.symm hv]
  simp only [degree, directed_adjacency_list.degree, directed_adjacency_list.out_degree,
    directed_adjacency_list.in_degree, hout, hin]

/-- Claim C18: the two mutations preserve what existed.  For every graph, every
`n < size()` and every vertex `w` of the graph: after `add_vertex(x)` the handle
`get_edge(n)` (hence its source and target), its edge value and the value of `w`
are as before, and so are `size()` and the degree of every vertex; after
`add_edge(u, v, y)` the handle `get_edge(n)`, its edge value and the value of `w`
are as before, and so are `order()` and the degree of every vertex other than `u`
and `v`. -/
theorem mutations_preserve_existing (g : undirected_adjacency_list V E) (n : Nat)
    (w : vertex_handle) (hn : n < g.size) (hw : g.is_vertex w) :
    (∀ x : V,
      (g.add_vertex x).1.get_edge_nth n = g.get_edge_nth n ∧
      (g.add_vertex x).1.edge_value ((g.add_vertex x).1.get_edge_nth n)
        = g.edge_value (g.get_edge_nth n) ∧
      (g.add_vertex x).1.vertex_value w = g.vertex_value w ∧
      (g.add_vertex x).1.size = g.size ∧
      ∀ z, (g.add_vertex x).1.degree z = g.degree z) ∧
    (∀ (u v : vertex_handle) (y : E),
      (g.add_edge u v y).1.get_edge_nth n = g.get_edge_nth n ∧
      (g.add_edge u v y).1.edge_value ((g.add_edge u v y).1.get_edge_nth n)
        = g.edge_value (g.get_edge_nth n) ∧
      (g.add_edge u v y).1.vertex_value w = g.vertex_value w ∧
      (g.add_edge u v y).1.order = g.order ∧
      ∀ z, z ≠ u → z ≠ v → (g.add_edge u v y).1.degree z = g.degree z) := by
  constructor
  · intro x
    exact ⟨rfl, rfl, add_vertex_value_lt g x w hw, rfl, fun _ => rfl⟩
  · intro u v y
    have hrec := add_edge_record_lt g u v y n hn
    have hget : (g.add_edge u v y).1.get_edge_nth n = g.get_edge_nth n := by
      simp only [get_edge_nth, make_edge_src, make_edge, directed_adjacency_list.source,
        directed_adjacency_list.target, hrec]
    refine ⟨hget, ?_, rfl, rfl, fun z hu hv => add_edge_degree_other g u v y z hu hv⟩
    rw [hget]
    show (g.add_edge u v y).1.base.edge_value (some n) = g.base.edge_value (some n)
    simp only [directed_adjacency_list.edge_value, hrec]

/-- Claim C18 at a concrete graph, the path `a - b - c`: after `add_edge(0, 1, 5)`
the handle `get_edge(1)`, its value 20 and the value of vertex 2 are unchanged,
and so is the degree of vertex 2. -/
theorem mutations_preserve_existing_witness :
    1 < (sample.build sample.path).size ∧
    (sample.build sample.path).is_vertex (some 2) ∧
    ((sample.build sample.path).add_edge (some 0) (some 1) 5).1.get_edge_nth 1
      = (sample.build sample.path).get_edge_nth 1 ∧
    ((sample.build sample.path).add_vertex 9).1.vertex_value (some 2)
      = (sample.build sample.path).vertex_value (some 2) ∧
    ((sample.build sample.path).add_edge (some 0) (some 1) 5).1.degree (some 2)
      = (sample.build sample.path).degree (some 2) :=
  ⟨by decide, by decide,
    ((mutations_preserve_existing (sample.build sample.path) 1 (some 2)
      (by decide) (by decide)).2 (some 0) (some 1) 5).1,
    ((mutations_preserve_existing (sample.build sample.path) 1 (some 2)
      (by decide) (by decide)).1 9).2.2.1,
    ((mutations_preserve_existing (sample.build sample.path) 1 (some 2)
      (by decide) (by decide)).2 (some 0) (some 1) 5).2.2.2.2 (some 2) (by decide) (by decide)⟩

/-- Claim C19 fails in the not-found case.  The traced evaluation returns the same
handle as `get_edge(u, v)` for every graph; on two vertices with no edge,
`get_edge(0, 1)` finds neither `0 → 1` nor `1 → 0` and still calls
`make_edge(null, 1)`, which asks the base store for the target of the null
directed edge: the one identity looked up is null, which is not valid. -/
theorem get_edge_looks_up_null_edge :
    (∀ (g : undirected_adjacency_list V E) (u v : vertex_handle),
      (g.get_edge_traced u v).1 = g.get_edge u v) ∧
    (sample.build sample.two_vertices).base.get_edge (some 0) (some 1) = none ∧
    (sample.build sample.two_vertices).base.get_edge (some 1) (some 0) = none ∧
    (sample.build sample.two_vertices).get_edge_traced (some 0) (some 1)
      = (⟨none, some 1, none⟩, [none]) ∧
    (sample.build sample.two_vertices).valid_edge none = false := by
  refine ⟨?_, by decide, by decide, by decide, by decide⟩
  intro g u v
  unfold get_edge_traced get_edge make_edge_traced make_edge
  by_cases h : (g.base.get_edge u v).isSome = true <;> simp [h]

end undirected_adjacency_list

/-! ## The boolean conjunction `All` -/

/-- Claim C17: `All` returns true exactly when every one of its arguments is true,
for every finite list of boolean arguments; `All()`, `All(true)` and
`All(true, true, true)` are true, `All(false)` and `All(true, true, false)` are
false, as the static assertions of `all.cpp` say. -/
theorem All_true_iff :
    (∀ bs : List Bool, All bs = true ↔ ∀ b ∈ bs, b = true) ∧
    All [] = true ∧ All [true] = true ∧ All [true, true, true] = true ∧
    All [false] = false ∧ All [true, true, false] = false := by
  refine ⟨?_, rfl, rfl, rfl, rfl, rfl⟩
  intro bs
  induction bs with
  | nil => simp [All]
  | cons b bs ih => simp [All, ih]

end origin
